import Mathlib

/-!
# Verification of `ext/hallon/common.h` (Hallon Ruby extension)

The repository's single source file is the C header `ext/hallon/common.h`.
We embed it at two levels:

* `commonHLines` / `commonHText`: the raw text of the file, line by line,
  exactly as it appears on disk (the final `#endif` line carries no
  trailing newline, which matters for the line count).
* `commonH`: the file as a list of preprocessor-level items, one item per
  physical line, together with a small evaluator `ppRun` for the fragment
  of the C preprocessor the file uses (`#ifndef` / `#ifdef` / `#else` /
  `#endif` / `#define` / `#include`, object-like macros tested only for
  definedness).

A preprocessing environment is a predicate `String → Bool` telling which
macros are defined.  `ppInclude env` returns the list of emitted includes
and declarations together with the environment after inclusion.
-/

namespace Hallon

/-- The physical lines of `ext/hallon/common.h`, in order.  The last line
(`#endif`) is not newline-terminated in the file. -/
def commonHLines : List String :=
  [ "#ifndef __HALLON__"
  , "  #define __HALLON__"
  , "  "
  , "  #include <ruby.h>"
  , "  #include <pthread.h>"
  , "  "
  , "  #ifdef HAVE_LIBSPOTIFY_API_H"
  , "  #  include <libspotify/api.h>"
  , "  #else"
  , "  #  include <spotify/api.h>"
  , "  #endif"
  , ""
  , "  /*"
  , "    Initializers for the other classes."
  , "  */"
  , "  void Init_Session(VALUE);"
  , "#endif" ]

/-- The raw text of `ext/hallon/common.h`: the lines joined by newline,
with no trailing newline after the final `#endif`. -/
def commonHText : String :=
  String.intercalate "\n" commonHLines

/-- One preprocessor-level item of a header file. -/
inductive PPLine where
  | ifndefD (m : String)
  | ifdefD (m : String)
  | elseD
  | endifD
  | defineD (m : String)
  | includeD (path : String)
  | declFun (ret : String) (name : String) (params : List String)
  | blank
  | commentL (text : String)
deriving DecidableEq, Repr

/-- `ext/hallon/common.h` as preprocessor items, one per physical line. -/
def commonH : List PPLine :=
  [ PPLine.ifndefD "__HALLON__"
  , PPLine.defineD "__HALLON__"
  , PPLine.blank
  , PPLine.includeD "ruby.h"
  , PPLine.includeD "pthread.h"
  , PPLine.blank
  , PPLine.ifdefD "HAVE_LIBSPOTIFY_API_H"
  , PPLine.includeD "libspotify/api.h"
  , PPLine.elseD
  , PPLine.includeD "spotify/api.h"
  , PPLine.endifD
  , PPLine.blank
  , PPLine.commentL "/*"
  , PPLine.commentL "Initializers for the other classes."
  , PPLine.commentL "*/"
  , PPLine.declFun "void" "Init_Session" ["VALUE"]
  , PPLine.endifD ]

/-- What preprocessing emits: an `#include` of a path, or a function
declaration (return type, name, parameter types). -/
inductive Emitted where
  | inc (path : String)
  | decl (ret : String) (name : String) (params : List String)
deriving DecidableEq, Repr

/-- One conditional-inclusion frame: whether the enclosing context was
active when the conditional opened, and whether the current branch's
condition holds. -/
structure Frame where
  parentActive : Bool
  branchTaken : Bool
deriving DecidableEq, Repr

/-- Whether text at the current point is included in the output. -/
def active : List Frame → Bool
  | [] => true
  | f :: _ => f.parentActive && f.branchTaken

/-- `#else`: flip the condition of the innermost conditional. -/
def flipFrame : List Frame → List Frame
  | [] => []
  | f :: fs => ⟨f.parentActive, !f.branchTaken⟩ :: fs

/-- `#endif`: close the innermost conditional. -/
def popFrame : List Frame → List Frame
  | [] => []
  | _ :: fs => fs

/-- `#define m`: mark the macro `m` as defined. -/
def addDef (m : String) (env : String → Bool) : String → Bool :=
  fun x => x == m || env x

/-- Prepend an emitted item to a preprocessing result. -/
def pushOut (e : Emitted) (r : List Emitted × (String → Bool)) :
    List Emitted × (String → Bool) :=
  (e :: r.1, r.2)

/-- Run the preprocessor over a list of items: returns the emitted
includes/declarations and the final macro environment. -/
def ppRun : List PPLine → (String → Bool) → List Frame →
    List Emitted × (String → Bool)
  | [], env, _ => ([], env)
  | PPLine.ifndefD m :: rest, env, stk =>
      ppRun rest env (⟨active stk, !env m⟩ :: stk)
  | PPLine.ifdefD m :: rest, env, stk =>
      ppRun rest env (⟨active stk, env m⟩ :: stk)
  | PPLine.elseD :: rest, env, stk => ppRun rest env (flipFrame stk)
  | PPLine.endifD :: rest, env, stk => ppRun rest env (popFrame stk)
  | PPLine.defineD m :: rest, env, stk =>
      if active stk then ppRun rest (addDef m env) stk
      else ppRun rest env stk
  | PPLine.includeD p :: rest, env, stk =>
      if active stk then pushOut (Emitted.inc p) (ppRun rest env stk)
      else ppRun rest env stk
  | PPLine.declFun r n ps :: rest, env, stk =>
      if active stk then pushOut (Emitted.decl r n ps) (ppRun rest env stk)
      else ppRun rest env stk
  | PPLine.blank :: rest, env, stk => ppRun rest env stk
  | PPLine.commentL _ :: rest, env, stk => ppRun rest env stk

/-- Include `common.h` once in environment `env`. -/
def ppInclude (env : String → Bool) : List Emitted × (String → Bool) :=
  ppRun commonH env []

/-- The function declarations syntactically present in a file. -/
def fileDecls (ls : List PPLine) : List (String × String × List String) :=
  ls.filterMap fun l =>
    match l with
    | PPLine.declFun r n ps => some (r, n, ps)
    | _ => none

/-- The macros syntactically `#define`d in a file. -/
def fileDefines (ls : List PPLine) : List String :=
  ls.filterMap fun l =>
    match l with
    | PPLine.defineD m => some m
    | _ => none

/-- The paths syntactically `#include`d in a file. -/
def fileIncludes (ls : List PPLine) : List String :=
  ls.filterMap fun l =>
    match l with
    | PPLine.includeD p => some p
    | _ => none

/-- Whether an emitted item is one of the two libspotify API headers. -/
def isSpotifyInc (e : Emitted) : Bool :=
  e == Emitted.inc "libspotify/api.h" || e == Emitted.inc "spotify/api.h"

/-- The arity of a declared function. -/
def declArity (d : String × String × List String) : Nat :=
  d.2.2.length

/-- Split a character sequence into its physical lines at newline
characters.  A trailing newline does not add an extra line beyond the
empty final chunk convention: `splitLines "a\nb" = [[a],[b]]`. -/
def splitLines (cs : List Char) : List (List Char) :=
  match cs with
  | [] => [[]]
  | c :: rest =>
      if c = '\n' then [] :: splitLines rest
      else
        match splitLines rest with
        | [] => [[c]]
        | l :: ls => (c :: l) :: ls

/-- The number of physical lines of a text. -/
def lineCount (s : String) : Nat :=
  (splitLines s.toList).length

/-! ### Evaluation lemmas for `ppInclude` -/

lemma beq_have_guard :
    (("HAVE_LIBSPOTIFY_API_H" : String) == "__HALLON__") = false := rfl

lemma beq_guard_guard :
    (("__HALLON__" : String) == "__HALLON__") = true := rfl

/-- If the guard macro is already defined, inclusion emits nothing and
leaves the environment unchanged. -/
lemma ppInclude_guarded (env : String → Bool) (h : env "__HALLON__" = true) :
    ppInclude env = ([], env) := by
  simp [ppInclude, commonH, ppRun, active, flipFrame, popFrame, pushOut, h]

/-- Full evaluation when the guard is not tripped and
`HAVE_LIBSPOTIFY_API_H` is defined. -/
lemma ppInclude_open_have (env : String → Bool)
    (h : env "__HALLON__" = false)
    (h2 : env "HAVE_LIBSPOTIFY_API_H" = true) :
    ppInclude env =
      ([ Emitted.inc "ruby.h"
       , Emitted.inc "pthread.h"
       , Emitted.inc "libspotify/api.h"
       , Emitted.decl "void" "Init_Session" ["VALUE"] ],
       addDef "__HALLON__" env) := by
  simp [ppInclude, commonH, ppRun, active, flipFrame, popFrame, pushOut,
    addDef, beq_have_guard, h, h2]

/-- Full evaluation when the guard is not tripped and
`HAVE_LIBSPOTIFY_API_H` is not defined. -/
lemma ppInclude_open_nohave (env : String → Bool)
    (h : env "__HALLON__" = false)
    (h2 : env "HAVE_LIBSPOTIFY_API_H" = false) :
    ppInclude env =
      ([ Emitted.inc "ruby.h"
       , Emitted.inc "pthread.h"
       , Emitted.inc "spotify/api.h"
       , Emitted.decl "void" "Init_Session" ["VALUE"] ],
       addDef "__HALLON__" env) := by
  simp [ppInclude, commonH, ppRun, active, flipFrame, popFrame, pushOut,
    addDef, beq_have_guard, h, h2]

/-- After any inclusion of the header, the guard macro is defined. -/
lemma guard_after (env : String → Bool) :
    (ppInclude env).2 "__HALLON__" = true := by
  cases h : env "__HALLON__" with
  | true => rw [ppInclude_guarded env h]; exact h
  | false =>
    cases h2 : env "HAVE_LIBSPOTIFY_API_H" with
    | true => rw [ppInclude_open_have env h h2]; simp [addDef, beq_guard_guard]
    | false => rw [ppInclude_open_nohave env h h2]; simp [addDef, beq_guard_guard]

/-! ### The companion translation unit (not in the repository sources) -/

/-- Modelled from the spec: the companion translation unit implementing the
extension is missing from the sources (only this header's forward
declaration of `Init_Session` is present).  Per the spec it defines
`Init_Session` and calls it during extension load to expose a `Session`
class to Ruby scripts that proxies calls into libspotify. -/
structure CompanionUnit where
  definedFunctions : List String
  loadTimeCalls : List String
  exposedClasses : List String

/-- Modelled from the spec: the Hallon companion translation unit, which
defines `Init_Session`, calls it at extension load, and exposes the Ruby
class `Session`. -/
def hallonCompanion : CompanionUnit :=
  { definedFunctions := ["Init_Session"]
  , loadTimeCalls := ["Init_Session"]
  , exposedClasses := ["Session"] }

/-! ### Claim theorems -/

/-- Claim C1: the header's set of function declarations contains
`Init_Session` and no other function: the only declaration is
`void Init_Session(VALUE)`. -/
theorem c1_only_init_session_declared :
    fileDecls commonH = [("void", "Init_Session", ["VALUE"])] ∧
    (fileDecls commonH).map (fun d => d.2.1) = ["Init_Session"] :=
  ⟨rfl, rfl⟩

/-- Claim C2: with the guard not tripped, exactly one libspotify API
header is included: `libspotify/api.h` when `HAVE_LIBSPOTIFY_API_H` is
defined, `spotify/api.h` otherwise — never both, never neither. -/
theorem c2_spotify_include_fallback (env : String → Bool)
    (h : env "__HALLON__" = false) :
    (ppInclude env).1.filter isSpotifyInc =
      [Emitted.inc (if env "HAVE_LIBSPOTIFY_API_H" then "libspotify/api.h"
                    else "spotify/api.h")] := by
  cases h2 : env "HAVE_LIBSPOTIFY_API_H" with
  | true => rw [ppInclude_open_have env h h2]; rfl
  | false => rw [ppInclude_open_nohave env h h2]; rfl

/-- Witness for C2 at the empty environment (neither macro defined). -/
theorem c2_spotify_include_fallback_witness :
    (fun _ : String => false) "__HALLON__" = false ∧
    (ppInclude (fun _ => false)).1.filter isSpotifyInc =
      [Emitted.inc (if (fun _ : String => false) "HAVE_LIBSPOTIFY_API_H"
                    then "libspotify/api.h" else "spotify/api.h")] :=
  ⟨rfl, c2_spotify_include_fallback (fun _ => false) rfl⟩

/-- Claim C3: the include guard makes inclusion idempotent: the `#ifndef`
test (line 1) and the `#define` (line 2) use the same macro `__HALLON__`,
the `#define` precedes every include and the declaration, and for every
environment a second inclusion emits nothing and leaves the environment
produced by the first inclusion unchanged. -/
theorem c3_include_guard_idempotent :
    commonH.head? = some (PPLine.ifndefD "__HALLON__") ∧
    commonH[1]? = some (PPLine.defineD "__HALLON__") ∧
    ∀ env : String → Bool,
      ppInclude ((ppInclude env).2) = ([], (ppInclude env).2) :=
  ⟨rfl, rfl, fun env => ppInclude_guarded _ (guard_after env)⟩

/-- Claim C4: whenever the guard is not already tripped, `<ruby.h>` and
`<pthread.h>` are both included, independent of `HAVE_LIBSPOTIFY_API_H`. -/
theorem c4_ruby_pthread_unconditional (env : String → Bool)
    (h : env "__HALLON__" = false) :
    Emitted.inc "ruby.h" ∈ (ppInclude env).1 ∧
    Emitted.inc "pthread.h" ∈ (ppInclude env).1 := by
  cases h2 : env "HAVE_LIBSPOTIFY_API_H" with
  | true => rw [ppInclude_open_have env h h2]; simp
  | false => rw [ppInclude_open_nohave env h h2]; simp

/-- Witness for C4 at the empty environment. -/
theorem c4_ruby_pthread_unconditional_witness :
    (fun _ : String => false) "__HALLON__" = false ∧
    (Emitted.inc "ruby.h" ∈ (ppInclude (fun _ => false)).1 ∧
     Emitted.inc "pthread.h" ∈ (ppInclude (fun _ => false)).1) :=
  ⟨rfl, c4_ruby_pthread_unconditional (fun _ => false) rfl⟩

/-- Claim C5: the entire content of the file is include directives, the
guard and fallback conditionals, comments and blanks, and one forward
declaration: the only macro defined is `__HALLON__`, the only declaration
is `void Init_Session(VALUE)`, the only includes are the four listed
paths, and every declaration item is the `Init_Session` one. -/
theorem c5_no_algorithmic_content :
    fileDefines commonH = ["__HALLON__"] ∧
    fileDecls commonH = [("void", "Init_Session", ["VALUE"])] ∧
    fileIncludes commonH =
      ["ruby.h", "pthread.h", "libspotify/api.h", "spotify/api.h"] ∧
    commonH.all (fun l =>
      match l with
      | PPLine.declFun _ n _ => n == "Init_Session"
      | _ => true) = true :=
  ⟨rfl, rfl, rfl, rfl⟩

set_option maxRecDepth 4000 in
/-- Counterexample for claim C6: the file does not consist of exactly 16
lines — splitting its text at newlines yields 17 lines, because the final
`#endif` line is not newline-terminated. -/
theorem c6_sixteen_lines_counterexample :
    ¬ (lineCount commonHText = 16) := by decide

set_option maxRecDepth 4000 in
/-- Claim C6 (amended): the file consists of 17 physical lines and
contains exactly 16 newline characters (the final line `#endif` is not
newline-terminated); its total size is 283 bytes. -/
theorem c6_line_count :
    lineCount commonHText = 17 ∧
    commonHLines.length = 17 ∧
    commonHText.toList.count '\n' = 16 ∧
    commonHText.length = 283 := by decide

/-- Claim C7: given this header, the companion translation unit (modelled
from the spec) defines every function the header declares — in particular
`Init_Session` — calls it during extension load, and exposes a `Session`
class. -/
theorem c7_companion_defines_and_calls :
    ((fileDecls commonH).map (fun d => d.2.1)).all
      (fun n => hallonCompanion.definedFunctions.contains n) = true ∧
    hallonCompanion.loadTimeCalls = ["Init_Session"] ∧
    hallonCompanion.exposedClasses = ["Session"] :=
  ⟨rfl, rfl, rfl⟩

/-- Claim C8: the declared signature of `Init_Session` takes exactly one
parameter, of type `VALUE`, and returns `void`. -/
theorem c8_init_session_signature :
    (fileDecls commonH).map declArity = [1] ∧
    (fileDecls commonH).map (fun d => d.1) = ["void"] ∧
    (fileDecls commonH).map (fun d => d.2.2) = [["VALUE"]] :=
  ⟨rfl, rfl, rfl⟩

/-- Claim C9: preprocessing the header is deterministic and depends only
on the definedness of `__HALLON__` and `HAVE_LIBSPOTIFY_API_H`: two
environments agreeing on those two macros emit identical includes and
declarations. -/
theorem c9_output_depends_only_on_two_macros (e1 e2 : String → Bool)
    (hG : e1 "__HALLON__" = e2 "__HALLON__")
    (hS : e1 "HAVE_LIBSPOTIFY_API_H" = e2 "HAVE_LIBSPOTIFY_API_H") :
    (ppInclude e1).1 = (ppInclude e2).1 := by
  cases h : e1 "__HALLON__" with
  | true =>
    rw [ppInclude_guarded e1 h, ppInclude_guarded e2 (hG.symm.trans h)]
  | false =>
    have h' : e2 "__HALLON__" = false := hG.symm.trans h
    cases h2 : e1 "HAVE_LIBSPOTIFY_API_H" with
    | true =>
      rw [ppInclude_open_have e1 h h2,
        ppInclude_open_have e2 h' (hS.symm.trans h2)]
    | false =>
      rw [ppInclude_open_nohave e1 h h2,
        ppInclude_open_nohave e2 h' (hS.symm.trans h2)]

/-- Witness for C9: two environments disagreeing on an unrelated macro
`OTHER` but agreeing (undefined) on the two relevant macros produce
identical output. -/
theorem c9_output_depends_only_on_two_macros_witness :
    (ppInclude (fun _ => false)).1 = (ppInclude (fun s => s == "OTHER")).1 :=
  c9_output_depends_only_on_two_macros (fun _ => false) (fun s => s == "OTHER")
    (by decide) (by decide)

/-- Claim C10: if `__HALLON__` is already defined before the header is
included, inclusion contributes nothing at all: no includes, no
declaration, and no change to the macro environment. -/
theorem c10_predefined_guard_noop (env : String → Bool)
    (h : env "__HALLON__" = true) :
    ppInclude env = ([], env) :=
  ppInclude_guarded env h

/-- Witness for C10 at an environment defining every macro. -/
theorem c10_predefined_guard_noop_witness :
    (fun _ : String => true) "__HALLON__" = true ∧
    ppInclude (fun _ => true) = ([], fun _ => true) :=
  ⟨rfl, c10_predefined_guard_noop (fun _ => true) rfl⟩

end Hallon
